import Mathlib

/-!
Verification of the go-yt-sum job-pipeline core against its design
specification.  The Go sources are shallowly embedded: pure helpers become
Lean functions, stateful components (job registry, chat manager, metadata
store) become explicit state-passing functions, and external I/O (yt-dlp,
ffmpeg, the transcription / LLM services, the filesystem) is supplied
through explicit environment records.  Machine integers are modelled as
Nat/Int, Go float64 timestamps as exact rationals, Go strings as Lean
strings (rune view; byte length is `String.utf8ByteSize`).
-/

namespace GoYtSum

/-- Association-list view of a Go `map[string]V`: lookup by key. -/
def lookupA {α : Type} : List (String × α) → String → Option α
  | [], _ => none
  | (k, v) :: rest, key => if k = key then some v else lookupA rest key

/-- Association-list view of Go `m[key] = v` when the key is known present:
replaces the bound value. -/
def updateA {α : Type} (m : List (String × α)) (key : String) (v : α) :
    List (String × α) :=
  m.map (fun kv => if kv.1 = key then (key, v) else kv)

/-- Association-list view of Go `m[key] = v` (insert or overwrite). -/
def insertA {α : Type} (m : List (String × α)) (key : String) (v : α) :
    List (String × α) :=
  match lookupA m key with
  | some _ => updateA m key v
  | none => m ++ [(key, v)]

/-- Association-list view of Go `delete(m, key)`. -/
def removeA {α : Type} (m : List (String × α)) (key : String) :
    List (String × α) :=
  m.filter (fun kv => kv.1 ≠ key)

/-- Go `fmt.Sprintf("%02d", n)` for the small non-negative values produced by
`fmtHMS` (zero-pads a single digit). -/
def pad2 (n : Int) : String :=
  if 0 ≤ n ∧ n < 10 then "0" ++ toString n else toString n

/-- `fmtHMS` from `adapters/summarize.go`: builds a `time.Duration` (int64
nanoseconds) from whole seconds and renders `HH:MM:SS` when the duration is
strictly greater than one hour, else `MM:SS`.  Go truncates
`Hours()/Minutes()/Seconds()` with `int(...)` (toward zero), which is
`Int.tdiv`/`Int.tmod` on the exact nanosecond values. -/
def fmtHMS (timeSecs : Int) : String :=
  let timestamp : Int := timeSecs * 1000000000
  if 3600000000000 < timestamp then
    pad2 (Int.tdiv timestamp 3600000000000) ++ ":" ++
      pad2 (Int.tmod (Int.tdiv timestamp 60000000000) 60) ++ ":" ++
      pad2 (Int.tmod (Int.tdiv timestamp 1000000000) 60)
  else
    pad2 (Int.tmod (Int.tdiv timestamp 60000000000) 60) ++ ":" ++
      pad2 (Int.tmod (Int.tdiv timestamp 1000000000) 60)

/-- Go `int64(x)` on a float64 time value: truncation toward zero of the
exact rational. -/
def goInt64 (q : ℚ) : Int := Int.tdiv q.num (q.den : Int)

/-- A transcript segment (`Segment` in the adapters packages); Go stores
`start`/`end` as floats, modelled exactly as rationals. -/
structure Segment where
  Start : ℚ
  End : ℚ
  Text : String
deriving DecidableEq, Repr

/-- `formatSubtitle` from the acquire adapter:
`fmt.Sprintf("[%s-%s]: %s", fmtHMS(int64(start)), fmtHMS(int64(end)), text)`. -/
def formatSubtitle (start stop : ℚ) (text : String) : String :=
  "[" ++ fmtHMS (goInt64 start) ++ "-" ++ fmtHMS (goInt64 stop) ++ "]: " ++ text

/-- The descending search loop of `FindNumOverlappingRunes`: tries
`k, k-1, ..., 1` and returns the first `k` whose suffix/prefix runes agree,
else 0. -/
def overlapFrom (ra rb : List Char) : Nat → Nat
  | 0 => 0
  | k + 1 =>
    if ra.drop (ra.length - (k + 1)) = rb.take (k + 1) then k + 1
    else overlapFrom ra rb k

/-- `FindNumOverlappingRunes` from the acquire adapter: the largest `k` such
that the last `k` runes of `a` equal the first `k` runes of `b`. -/
def FindNumOverlappingRunes (a b : String) : Nat :=
  overlapFrom a.data b.data (min a.data.length b.data.length)

/-- One parsed `astisub` item inside `formatVTT`: start/end seconds and the
subtitle text. -/
structure SubItem where
  startAt : ℚ
  endAt : ℚ
  text : String
deriving DecidableEq, Repr

/-- One iteration of the segment-accumulation loop in `formatVTT`: skip
empty/zero-length items, de-duplicate against the previous segment
(`if k > len(r)` drop it, `else if k > 0` trim its last `k` runes), then
append the new segment. -/
def formatVTTStep (segments : List Segment) (it : SubItem) : List Segment :=
  if it.text = "" ∨ goInt64 it.startAt = goInt64 it.endAt then segments
  else
    let segments :=
      match segments.getLast? with
      | none => segments
      | some prev =>
        let k := FindNumOverlappingRunes prev.Text it.text
        let r := prev.Text.data
        if k > r.length then segments.dropLast
        else if k > 0 then
          segments.dropLast ++ [{ prev with Text := (r.take (r.length - k)).asString }]
        else segments
    segments ++ [{ Start := it.startAt, End := it.endAt, Text := it.text }]

/-- The segment list `formatVTT` builds from the parsed subtitle items
before encoding it to the transcription artifact. -/
def formatVTTSegments (items : List SubItem) : List Segment :=
  items.foldl formatVTTStep []

/-- `MaxTokens` from `adapters/summarize.go`. -/
def MaxTokens : Nat := 30000

/-- The accumulation loop of `createTranscriptSegments`: concatenates
formatted `[start-end]: text` lines (with trailing newline) and flushes the
buffer into `out` once Go's `len` (UTF-8 byte size) exceeds `MaxTokens*4`;
the remainder is appended at the end. -/
def ctsLoop (script : List Segment) (currentString : String)
    (out : List String) : List String :=
  match script with
  | [] => out ++ [currentString]
  | seg :: rest =>
    let cur := currentString ++ formatSubtitle seg.Start seg.End seg.Text ++ "\n"
    if cur.utf8ByteSize > MaxTokens * 4 then ctsLoop rest "" (out ++ [cur])
    else ctsLoop rest cur out

/-- `createTranscriptSegments` from `adapters/summarize.go`. -/
def createTranscriptSegments (script : List Segment) : List String :=
  ctsLoop script "" []

/-- A chat room (`Chat` in `backend/chat/types.go`). -/
structure Chat where
  videoID : String
  isBusy : Bool
  inProgressRequest : String
  inProgressResponse : String
  numListeners : Nat
deriving DecidableEq, Repr

/-- A persisted chat transcript entry (`Message`). -/
structure ChatMsg where
  content : String
  role : String
deriving DecidableEq, Repr

/-- `ChatManager` state: the room registry and the subscriber set
(client id ↦ the video id it listens to; the HTTP sink itself carries no
state we reason about). -/
structure ChatManager where
  chats : List (String × Chat)
  clients : List (String × String)
deriving DecidableEq, Repr

/-- An event written to a room's subscribers: `update` carries the snapshot
taken under the registry lock, `complete` has an empty payload. -/
inductive ChatEvent where
  | update (snapshot : Chat)
  | complete
deriving DecidableEq, Repr

/-- `broadcastUpdate`: snapshot the room (silently dropping the broadcast if
the room is gone) and write one `update` frame to its listeners. -/
def broadcastUpdate (mgr : ChatManager) (videoID : String) : List ChatEvent :=
  match lookupA mgr.chats videoID with
  | none => []
  | some chat => [ChatEvent.update chat]

/-- `DeleteClient` from `backend/adapters/config.go` (chat manager): remove
the client; decrement the room's listener count (not below zero); remove the
room from the registry when the count reaches zero. -/
def DeleteClient (mgr : ChatManager) (clientID : String) :
    ChatManager × Except String Unit :=
  match lookupA mgr.clients clientID with
  | none =>
    (mgr, Except.error ("Client \"" ++ clientID ++ "\" could not be found"))
  | some roomID =>
    let clients2 := removeA mgr.clients clientID
    match lookupA mgr.chats roomID with
    | none => ({ mgr with clients := clients2 }, Except.ok ())
    | some chat =>
      let n := if chat.numListeners > 0 then chat.numListeners - 1
               else chat.numListeners
      if n = 0 then
        ({ chats := removeA mgr.chats roomID, clients := clients2 }, Except.ok ())
      else
        ({ chats := updateA mgr.chats roomID { chat with numListeners := n },
           clients := clients2 }, Except.ok ())

/-- The synchronous part of `SendMessage` (up to its `return nil`): under the
registry lock reject when the room is missing or busy, otherwise mark the
room busy with the new request; then broadcast one `update`. -/
def SendMessageSync (mgr : ChatManager) (videoID message : String) :
    ChatManager × List ChatEvent × Except String Unit :=
  match lookupA mgr.chats videoID with
  | none =>
    (mgr, [], Except.error ("chat for video \"" ++ videoID ++ "\" not found"))
  | some chat =>
    if chat.isBusy then
      (mgr, [], Except.error "chat is busy processing another message")
    else
      let mgr2 := { mgr with
        chats := updateA mgr.chats videoID
          { chat with isBusy := true, inProgressRequest := message,
                      inProgressResponse := "" } }
      (mgr2, broadcastUpdate mgr2 videoID, Except.ok ())

/-- Apply a mutation to the room under its lock (`chat.mu`). -/
def mapChat (mgr : ChatManager) (videoID : String) (f : Chat → Chat) :
    ChatManager :=
  match lookupA mgr.chats videoID with
  | none => mgr
  | some chat => { mgr with chats := updateA mgr.chats videoID (f chat) }

/-- The `onProgress` callback of the chat worker: append the streamed token
to `in_progress_response` under the room lock, then broadcast `update`. -/
def tokenStep (videoID : String) (acc : ChatManager × List ChatEvent)
    (tok : String) : ChatManager × List ChatEvent :=
  let m := mapChat acc.1 videoID
    (fun c => { c with inProgressResponse := c.inProgressResponse ++ tok })
  (m, acc.2 ++ broadcastUpdate m videoID)

/-- The asynchronous worker of `SendMessage`, given the model stream's
behaviour (`tokens` passed to `onProgress`, then `modelErr` if
`SendChatMessage` returned an error): stream tokens into
`in_progress_response` broadcasting `update` each time; on a model error
overwrite the response with `"Error: ..."`; then (deferred) broadcast
`complete`, append `{user, message}`/`{assistant, response}` to the
transcript when the response is non-empty, clear the room state, and
broadcast one final `update`.  Returns the manager, the events written, and
the persisted transcript. -/
def chatWorkerRun (mgr : ChatManager) (videoID message : String)
    (history : List ChatMsg) (tokens : List String) (modelErr : Option String) :
    ChatManager × List ChatEvent × List ChatMsg :=
  let body := tokens.foldl (tokenStep videoID) (mgr, [])
  let after :=
    match modelErr with
    | none => body
    | some e =>
      let m := mapChat body.1 videoID
        (fun c => { c with inProgressResponse := "Error: " ++ e })
      (m, body.2 ++ broadcastUpdate m videoID)
  let evs := after.2 ++ [ChatEvent.complete]
  let finalResponse :=
    (lookupA after.1.chats videoID).elim "" (fun c => c.inProgressResponse)
  let history2 :=
    if finalResponse ≠ "" then
      history ++ [⟨message, "user"⟩, ⟨finalResponse, "assistant"⟩]
    else history
  let mgr3 := mapChat after.1 videoID (fun c =>
    { c with isBusy := false, inProgressRequest := "", inProgressResponse := "" })
  (mgr3, evs ++ broadcastUpdate mgr3 videoID, history2)

/-- `VideoEntry` from `backend/db/db.go`: video metadata plus the persisted
failure flag. -/
structure VideoEntry where
  videoID : String
  videoThumbnailURL : String
  videoName : String
  creatorName : String
  length : ℚ
  uploadDate : String
  jobFailed : Bool
  lastError : String
deriving DecidableEq, Repr

/-- A filesystem operation performed by `SaveToFile`; the temp file lives in
`dir` and `renameTempTo` atomically installs it as `target`. -/
inductive FsOp where
  | createTemp (dir : String)
  | writeTemp (doc : List (String × VideoEntry))
  | syncTemp
  | closeTemp
  | renameTempTo (dir target : String)
  | removeTemp
deriving DecidableEq, Repr

/-- Go `filepath.Dir` restricted to the clean relative paths this program
uses: everything before the final slash, or `"."` when there is none. -/
def goDir (p : String) : String :=
  let parts := p.splitOn "/"
  if parts.length ≤ 1 then "." else String.intercalate "/" parts.dropLast

/-- The metadata store (`DB`): the in-memory document, the backing path, and
the current on-disk document (installed by the rename in `SaveToFile`). -/
structure DB where
  data : List (String × VideoEntry)
  filePath : String
  file : List (String × VideoEntry)
deriving DecidableEq, Repr

/-- `SaveToFile`: no-op for an empty path, otherwise write the whole
document to a fresh temp file in the same directory, fsync, close, and
rename it over the target (the deferred remove of the temp is a no-op). -/
def SaveToFile (db : DB) : DB × List FsOp :=
  if db.filePath = "" then (db, [])
  else
    ({ db with file := db.data },
     [FsOp.createTemp (goDir db.filePath), FsOp.writeTemp db.data,
      FsOp.syncTemp, FsOp.closeTemp,
      FsOp.renameTempTo (goDir db.filePath) db.filePath, FsOp.removeTemp])

/-- `DB.Delete`: removes the entry from the in-memory map only (the source
performs no `SaveToFile` here), so it produces no filesystem operations. -/
def DB.Delete (db : DB) (videoID : String) : DB × List FsOp :=
  ({ db with data := removeA db.data videoID }, [])

/-- `DB.Create`: insert/overwrite the entry, then persist. -/
def DB.Create (db : DB) (videoID : String) (entry : VideoEntry) :
    DB × List FsOp :=
  SaveToFile { db with data := insertA db.data videoID entry }

/-- `DB.SetJobFailed`: update the failure fields and persist when the entry
exists; otherwise do nothing. -/
def DB.SetJobFailed (db : DB) (videoID : String) (failed : Bool)
    (errorMsg : String) : DB × List FsOp :=
  match lookupA db.data videoID with
  | some entry =>
    SaveToFile { db with
      data := updateA db.data videoID
        { entry with jobFailed := failed, lastError := errorMsg } }
  | none => (db, [])

/-- `DB.UpdateJobSuccess`: clears the failure state. -/
def DB.UpdateJobSuccess (db : DB) (videoID : String) : DB × List FsOp :=
  DB.SetJobFailed db videoID false ""

/-- `JobProgress` from `job/job.go`. -/
structure JobProgress where
  videoMeta : Option VideoEntry
  percentageString : String
  hadCaptions : Bool
  transcriptionChunks : Nat
  chunksTranscribed : Nat
  summaryChunks : Nat
  chunksSummarized : Nat
deriving DecidableEq, Repr

/-- Go zero value of `JobProgress`. -/
def JobProgress.zero : JobProgress :=
  { videoMeta := none, percentageString := "", hadCaptions := false,
    transcriptionChunks := 0, chunksTranscribed := 0,
    summaryChunks := 0, chunksSummarized := 0 }

/-- `SummaryJob` from `job/job.go` (the mutex and callback are control
plumbing, not data). -/
structure SummaryJob where
  videoID : String
  status : String
  error : String
  progress : JobProgress
deriving DecidableEq, Repr

/-- `ActiveJobsManager` state: the job registry, the failure-tracker store,
and the job events broadcast so far (event type, payload snapshot). -/
structure Manager where
  jobs : List (String × SummaryJob)
  db : DB
  events : List (String × SummaryJob)
deriving DecidableEq, Repr

/-- `CreateJob` from `job/manager.go`: if a job exists whose status is not
`"failed"`, return it untouched with `exists = true`; otherwise clear the
persisted failure state, build a fresh `pending` job, broadcast a `new`
event, and install the job. -/
def CreateJob (mgr : Manager) (videoID : String) :
    (Bool × SummaryJob) × Manager :=
  match lookupA mgr.jobs videoID with
  | some j =>
    if j.status ≠ "failed" then ((true, j), mgr)
    else
      let db2 := (DB.UpdateJobSuccess mgr.db videoID).1
      let newJob : SummaryJob :=
        { videoID := videoID, status := "pending", error := "",
          progress := JobProgress.zero }
      ((false, newJob),
       { jobs := insertA mgr.jobs videoID newJob, db := db2,
         events := mgr.events ++ [("new", newJob)] })
  | none =>
    let db2 := (DB.UpdateJobSuccess mgr.db videoID).1
    let newJob : SummaryJob :=
      { videoID := videoID, status := "pending", error := "",
        progress := JobProgress.zero }
    ((false, newJob),
     { jobs := insertA mgr.jobs videoID newJob, db := db2,
       events := mgr.events ++ [("new", newJob)] })

/-- One directory entry seen by `findFirstByVideoID`. -/
structure DirEntry where
  name : String
  isDir : Bool
deriving DecidableEq, Repr

/-- The name filter inside `findFirstByVideoID`:
`strings.HasPrefix(name, id) && (len(name) == len(id) || name[len(id)] == '.')`. -/
def matchesID (id name : String) : Bool :=
  id.isPrefixOf name &&
    (name.data.length = id.data.length || name.data.get? id.data.length = some '.')

/-- `strings.HasSuffix(strings.ToLower(name), ".vtt")`. -/
def hasVttSuffix (name : String) : Bool :=
  ".vtt".data.isSuffixOf name.toLower.data

/-- `findFirstByVideoID`: scan the directory; return `dir/name` for the
first matching `.vtt` file.  The `first` fallback variable in the source is
never assigned, so a scan without a `.vtt` match returns `""`. -/
def findFirstByVideoID (entries : List DirEntry) (dir id : String) : String :=
  match entries with
  | [] => ""
  | e :: rest =>
    if e.isDir then findFirstByVideoID rest dir id
    else if matchesID id e.name && hasVttSuffix e.name then dir ++ "/" ++ e.name
    else findFirstByVideoID rest dir id

/-- `DownloadsPath` from `backend/adapters/config.go`. -/
def DownloadsPath : String := "./content/downloads"

/-- A yt-dlp progress report as consumed by the `ProgressFunc` callback:
`up.PercentString()` and whether `up.Status == "finished"`. -/
structure MediaUpdate where
  percent : String
  finished : Bool
deriving DecidableEq, Repr

/-- The external world of one pipeline run: results of every I/O action the
stages perform, supplied positionally where the code loops. -/
structure PipeEnv where
  audioExists : Bool
  probeErr : Option String
  dirRead : Except String (List DirEntry)
  infoJson : Except String VideoEntry
  vttOpen : Except String (List SubItem)
  vttWriteErr : Option String
  mediaErr : Option String
  mediaProgress : List MediaUpdate
  transcriptionExists : Bool
  chunkEntries : Except String (List String)
  chunkResults : Nat → Except String (List Segment)
  scribeWriteErr : Option String
  scribeRead : Except String (List Segment)
  llmResults : Nat → Except String String
  summaryWriteErr : Option String

/-- The per-job view of `UpdateJob`: the current job record plus the ordered
snapshots broadcast after each mutation. -/
structure St where
  job : SummaryJob
  trace : List SummaryJob
deriving DecidableEq, Repr

/-- `UpdateJob`: apply the mutator under the job's lock and broadcast the
resulting snapshot. -/
def push (st : St) (f : SummaryJob → SummaryJob) : St :=
  let j := f st.job
  { job := j, trace := st.trace ++ [j] }

/-- `extractVideoMeta`: read `<videoID>.info.json` and store the metadata in
`progress.video_meta`; on a read error return it without mutating. -/
def extractVideoMeta (env : PipeEnv) (st : St) : St × Option String :=
  match env.infoJson with
  | Except.error e => (st, some ("read info.json: " ++ e))
  | Except.ok meta =>
    (push st (fun j =>
      { j with progress := { j.progress with videoMeta := some meta } }), none)

/-- `formatVTT` (acquire adapter): parse the subtitle file, build the
de-duplicated segment list, encode it to the transcription artifact and
remove the raw file; any step's error is returned. -/
def formatVTTRun (env : PipeEnv) : Option String :=
  match env.vttOpen with
  | Except.error e => some e
  | Except.ok items =>
    let _segments := formatVTTSegments items
    env.vttWriteErr

/-- The media-download branch of `DownloadVideo` (unreachable in the source,
kept for fidelity): set `downloading_audio`, stream progress updates into
`percentage_string` (flipping to `extracting_audio` on a `finished` report),
then extract the metadata, ignoring its error. -/
def mediaBranch (env : PipeEnv) (st : St) : St × Except String Bool :=
  let st := push st (fun j => { j with status := "downloading_audio" })
  let st := env.mediaProgress.foldl (fun s u =>
    push s (fun j =>
      let j2 := { j with progress :=
        { j.progress with percentageString := u.percent } }
      if u.finished then { j2 with status := "extracting_audio" } else j2)) st
  match env.mediaErr with
  | some e => (st, Except.error e)
  | none => ((extractVideoMeta env st).1, Except.ok false)

/-- `DownloadVideo` from the acquire adapter (`part_006`): skip everything
when the audio artifact exists; otherwise set `checking_for_captions`, run
the caption probe, locate a `.vtt`; an empty path is an error
("Captions should have been available") — which makes the following
`rawPath == ""` media branch dead; with captions, set `downloaded_captions`,
extract metadata (error ignored) and format the subtitles, returning
`true` for the captions fast-path. -/
def DownloadVideo (env : PipeEnv) (videoID : String) (st : St) :
    St × Except String Bool :=
  if env.audioExists then (st, Except.ok false)
  else
    let st := push st (fun j => { j with status := "checking_for_captions" })
    match env.probeErr with
    | some e => (st, Except.error e)
    | none =>
      match env.dirRead with
      | Except.error e => (st, Except.error e)
      | Except.ok entries =>
        let rawPath := findFirstByVideoID entries DownloadsPath videoID
        if rawPath = "" then (st, Except.error "Captions should have been available")
        else if rawPath = "" then mediaBranch env st
        else
          let st := push st (fun j => { j with status := "downloaded_captions" })
          let st := (extractVideoMeta env st).1
          match formatVTTRun env with
          | some e => (st, Except.error e)
          | none => (st, Except.ok true)

/-- Shift a transcription chunk's segments by the cumulative offset. -/
def shiftSegs (offset : ℚ) (l : List Segment) : List Segment :=
  l.map (fun s => { s with Start := s.Start + offset, End := s.End + offset })

/-- The per-chunk loop of `TranscribeVideo`: transcribe chunk `i`, shift its
timestamps by the running 1200-second offset, report
`transcription_chunks_transcribed = i+1`, and accumulate the segments. -/
def transcribeLoop (env : PipeEnv) (st : St) (entries : List String) (i : Nat)
    (offset : ℚ) (acc : List Segment) : St × Except String (List Segment) :=
  match entries with
  | [] => (st, Except.ok acc)
  | _e :: rest =>
    match env.chunkResults i with
    | Except.error e => (st, Except.error e)
    | Except.ok segs =>
      let segs := shiftSegs offset segs
      let st := push st (fun j =>
        { j with progress := { j.progress with chunksTranscribed := i + 1 } })
      transcribeLoop env st rest (i + 1) (offset + 1200) (acc ++ segs)

/-- `TranscribeVideo` from `adapters/transcribe.go`: skip when the merged
segment artifact exists; otherwise `chunking`, split the audio, then
`transcribing` with the chunk total, run the per-chunk loop, and write the
artifact. -/
def TranscribeVideo (env : PipeEnv) (st : St) : St × Except String Unit :=
  if env.transcriptionExists then (st, Except.ok ())
  else
    let st := push st (fun j => { j with status := "chunking" })
    match env.chunkEntries with
    | Except.error e => (st, Except.error e)
    | Except.ok entries =>
      let st := push st (fun j =>
        { j with status := "transcribing",
                 progress := { j.progress with
                   transcriptionChunks := entries.length } })
      match transcribeLoop env st entries 0 0 [] with
      | (st, Except.error e) => (st, Except.error e)
      | (st, Except.ok _segs) =>
        match env.scribeWriteErr with
        | some e => (st, Except.error e)
        | none => (st, Except.ok ())

/-- The rolling-summary loop of `SummarizeVideo`: feed chunk `i` and the
current summary to the model; on success report
`summary_chunks_transcribed = i+1` and continue with the returned summary. -/
def summarizeLoop (env : PipeEnv) (st : St) (chunks : List String) (i : Nat)
    (currentSummary : String) : St × Except String String :=
  match chunks with
  | [] => (st, Except.ok currentSummary)
  | _c :: rest =>
    match env.llmResults i with
    | Except.error e => (st, Except.error e)
    | Except.ok newSummary =>
      let st := push st (fun j =>
        { j with progress := { j.progress with chunksSummarized := i + 1 } })
      summarizeLoop env st rest (i + 1) newSummary

/-- `SummarizeVideo` from `adapters/summarize.go`: read the segment
artifact, chunk it, report `summary_chunks`, run the rolling summary, and
write the summary artifact. -/
def SummarizeVideo (env : PipeEnv) (st : St) : St × Except String Unit :=
  match env.scribeRead with
  | Except.error e => (st, Except.error e)
  | Except.ok scribeData =>
    let chunks := createTranscriptSegments scribeData
    let st := push st (fun j =>
      { j with progress := { j.progress with summaryChunks := chunks.length } })
    match summarizeLoop env st chunks 0 "" with
    | (st, Except.error e) => (st, Except.error e)
    | (st, Except.ok _finalSummary) =>
      match env.summaryWriteErr with
      | some e => (st, Except.error e)
      | none => (st, Except.ok ())

/-- The pipeline's error consumer (`handleErrors`): mark the job `failed`
and record the cause. -/
def failJob (st : St) (e : String) : St :=
  push st (fun j => { j with status := "failed", error := e })

/-- `summarizeNextJob` followed by `displayOutput`: set `summarizing`, run
the summarize adapter, and on success flip the job to `finished`. -/
def summarizeStage (env : PipeEnv) (st : St) : St :=
  let st := push st (fun j => { j with status := "summarizing" })
  match SummarizeVideo env st with
  | (st, Except.error e) => failJob st e
  | (st, Except.ok _) => push st (fun j => { j with status := "finished" })

/-- One job's full journey through the pipeline (`pipeline.go`): intake
creates the `pending` job, the acquire stage branches on the captions
fast-path (`true` → summarize queue) or the media path (`false` →
transcribe queue); any stage error is posted to the error consumer. -/
def pipelineRun (videoID : String) (env : PipeEnv) : St :=
  let job0 : SummaryJob :=
    { videoID := videoID, status := "pending", error := "",
      progress := JobProgress.zero }
  let st0 : St := { job := job0, trace := [job0] }
  match DownloadVideo env videoID st0 with
  | (st, Except.error e) => failJob st e
  | (st, Except.ok true) => summarizeStage env st
  | (st, Except.ok false) =>
    match TranscribeVideo env st with
    | (st, Except.error e) => failJob st e
    | (st, Except.ok _) => summarizeStage env st

/-- The `status` edges of the §4.3 state-machine table that connect two
named states (the `any → failed` and `failed → pending` rows are handled in
`isEdge`). -/
def namedEdges : List (String × String) :=
  [("pending", "checking_for_captions"),
   ("checking_for_captions", "downloaded_captions"),
   ("checking_for_captions", "downloading_audio"),
   ("downloading_audio", "extracting_audio"),
   ("extracting_audio", "chunking"),
   ("chunking", "transcribing"),
   ("transcribing", "summarizing"),
   ("downloaded_captions", "summarizing"),
   ("summarizing", "finished")]

/-- Whether `a → b` is an edge of the §4.3 state machine. -/
def isEdge (a b : String) : Bool :=
  b = "failed" || (a, b) ∈ namedEdges || (a = "failed" && b = "pending")

/-- The consecutive `status` changes along a broadcast trace. -/
def statusChanges : List SummaryJob → List (String × String)
  | a :: b :: rest =>
    (if a.status = b.status then [] else [(a.status, b.status)]) ++
      statusChanges (b :: rest)
  | _ => []

/-- Every status change of the trace follows the §4.3 table. -/
def goodTrace (trace : List SummaryJob) : Bool :=
  (statusChanges trace).all (fun p => isEdge p.1 p.2)

/-- One rendered transcript line of `createTranscriptSegments`:
`formatSubtitle(...) + "\n"`. -/
def subtitleLine (seg : Segment) : String :=
  formatSubtitle seg.Start seg.End seg.Text ++ "\n"

/-- The spec's `HH:MM:SS` rendering of `t` whole seconds, written directly
from the spec's words for comparison with the source's `fmtHMS`. -/
def specTimestampHMS (t : Nat) : String :=
  pad2 ((t / 3600 : Nat) : Int) ++ ":" ++ pad2 ((t / 60 % 60 : Nat) : Int)
    ++ ":" ++ pad2 ((t % 60 : Nat) : Int)

/-- The spec's `MM:SS` rendering of `t` whole seconds. -/
def specTimestampMS (t : Nat) : String :=
  pad2 ((t / 60 % 60 : Nat) : Int) ++ ":" ++ pad2 ((t % 60 : Nat) : Int)

/-- Fixture: a pipeline environment for a fresh run of a video that has
automatic captions (`vid.en.vtt` is produced by the probe). -/
def envCaps : PipeEnv :=
  { audioExists := false, probeErr := none,
    dirRead := Except.ok [{ name := "dQw4w9WgXcQ.en.vtt", isDir := false }],
    infoJson := Except.error "missing",
    vttOpen := Except.ok [{ startAt := 0, endAt := 5, text := "hello world" }],
    vttWriteErr := none, mediaErr := none, mediaProgress := [],
    transcriptionExists := false, chunkEntries := Except.ok [],
    chunkResults := fun _ => Except.ok [], scribeWriteErr := none,
    scribeRead := Except.ok [], llmResults := fun _ => Except.ok "summary",
    summaryWriteErr := none }

/-- Fixture: the same video on a fresh run where the caption probe produces
no `.vtt` file (no automatic captions). -/
def envNoCaptions : PipeEnv := { envCaps with dirRead := Except.ok [] }

/-- Fixture: a re-run where the audio artifact already exists on disk. -/
def envRerunAudio : PipeEnv := { envCaps with audioExists := true }

/-- Fixture: a re-run where both the audio and the transcription artifacts
already exist on disk. -/
def envRerunBoth : PipeEnv :=
  { envCaps with audioExists := true, transcriptionExists := true }

/-- Fixture: a failed job as left by the error consumer. -/
def failedJobV : SummaryJob :=
  { videoID := "v", status := "failed", error := "boom",
    progress := JobProgress.zero }

/-- Fixture: a tracker entry recording a failure for video `"v"`. -/
def entryV : VideoEntry :=
  { videoID := "v", videoThumbnailURL := "", videoName := "n",
    creatorName := "c", length := 10, uploadDate := "2024-01-01",
    jobFailed := true, lastError := "boom" }

/-- Fixture: a metadata store whose document is synced to disk. -/
def dbSynced : DB :=
  { data := [("v", entryV)], filePath := "./content/db.json",
    file := [("v", entryV)] }

/-- Fixture: a registry holding the failed job for `"v"` with a synced
failure-tracker store. -/
def mgrFailedV : Manager :=
  { jobs := [("v", failedJobV)], db := dbSynced, events := [] }

/-- Fixture: an idle chat room for `"v"` with one listener. -/
def chatIdle : Chat :=
  { videoID := "v", isBusy := false, inProgressRequest := "",
    inProgressResponse := "", numListeners := 1 }

/-- Fixture: a chat manager holding the idle room and its one client. -/
def cmgrIdle : ChatManager :=
  { chats := [("v", chatIdle)], clients := [("c1", "v")] }

/-- Fixture: a busy room (a response is in flight) with one listener. -/
def chatBusy : Chat :=
  { videoID := "v", isBusy := true, inProgressRequest := "q",
    inProgressResponse := "r", numListeners := 1 }

/-- Fixture: a chat manager holding the busy room and its one client. -/
def cmgrBusy : ChatManager :=
  { chats := [("v", chatBusy)], clients := [("c1", "v")] }

/-- Fixture: a busy room with two listeners. -/
def cmgrTwo : ChatManager :=
  { chats := [("v", { chatBusy with numListeners := 2 })],
    clients := [("c1", "v"), ("c2", "v")] }

/-- The response text the worker holds when the stream terminates: the
streamed tokens appended to the initial buffer, or the `"Error: ..."` text
when the model call failed. -/
def finalResponseOf (c : Chat) (tokens : List String)
    (modelErr : Option String) : String :=
  match modelErr with
  | some e => "Error: " ++ e
  | none => c.inProgressResponse ++ String.join tokens

/-- The field clear performed under the room lock when the worker
finishes. -/
def clearRoom (ch : Chat) : Chat :=
  { ch with isBusy := false, inProgressRequest := "", inProgressResponse := "" }

/-- Folding string concatenation from any seed factors the seed out. -/
theorem strFoldlAppend (l : List String) (a : String) :
    l.foldl (fun r s => r ++ s) a = a ++ l.foldl (fun r s => r ++ s) "" := by
  induction l generalizing a with
  | nil => simp [String.append_empty]
  | cons s rest ih =>
    simp only [List.foldl_cons]
    rw [ih (a ++ s), ih ("" ++ s), String.empty_append, String.append_assoc]

/-- `String.join` over a cons. -/
theorem joinCons (s : String) (l : List String) :
    String.join (s :: l) = s ++ String.join l := by
  simp only [String.join, List.foldl_cons]
  rw [strFoldlAppend l ("" ++ s), String.empty_append]

/-- `String.join` over an appended singleton. -/
theorem joinConcat (l : List String) (s : String) :
    String.join (l ++ [s]) = String.join l ++ s := by
  simp only [String.join, List.foldl_append, List.foldl_cons, List.foldl_nil]

/-- The chunking loop never returns an empty list. -/
theorem ctsLoop_ne_nil (script : List Segment) (cur : String)
    (out : List String) : ctsLoop script cur out ≠ [] := by
  induction script generalizing cur out with
  | nil => simp [ctsLoop]
  | cons seg rest ih =>
    simp only [ctsLoop]
    split
    · exact ih _ _
    · exact ih _ _

/-- The chunking loop preserves the transcript text: joining its output
yields the joined buffer-so-far plus the remaining formatted lines. -/
theorem ctsLoop_join (script : List Segment) (cur : String)
    (out : List String) :
    String.join (ctsLoop script cur out)
      = String.join out ++ (cur ++ String.join (script.map subtitleLine)) := by
  induction script generalizing cur out with
  | nil => simp [ctsLoop, joinConcat, String.append_empty, String.join]
  | cons seg rest ih =>
    simp only [ctsLoop, List.map_cons]
    split
    · rw [ih, joinConcat, joinCons, subtitleLine]
      simp [String.append_assoc, String.empty_append]
    · rw [ih, joinCons, subtitleLine]
      simp [String.append_assoc]

/-- Every chunk the loop flushes into `out` is over the size threshold, so
every chunk except the last one is. -/
theorem ctsLoop_sizes (script : List Segment) (cur : String)
    (out : List String)
    (h : out.all (fun c => decide (MaxTokens * 4 < c.utf8ByteSize)) = true) :
    ((ctsLoop script cur out).dropLast).all
      (fun c => decide (MaxTokens * 4 < c.utf8ByteSize)) = true := by
  induction script generalizing cur out with
  | nil =>
    simpa [ctsLoop, List.dropLast_concat] using h
  | cons seg rest ih =>
    simp only [ctsLoop]
    split
    · next hbig =>
      apply ih
      simp only [List.all_append, h, Bool.true_and, List.all_cons,
        List.all_nil, Bool.and_true]
      simpa using hbig
    · exact ih _ _ h

/-- C10: `createTranscriptSegments` always returns at least one chunk; the
chunks concatenate to exactly the formatted `[start-end]: text` lines (each
with a trailing newline) of the input segments in order; every chunk except
the last exceeds `MaxTokens*4 = 120000` in Go length (UTF-8 bytes); and the
empty segment list yields the single empty chunk, so `summary_chunks` is
reported as 1. -/
theorem C10_chunking (script : List Segment) :
    createTranscriptSegments script ≠ []
    ∧ String.join (createTranscriptSegments script)
        = String.join (script.map subtitleLine)
    ∧ ((createTranscriptSegments script).dropLast).all
        (fun c => decide (MaxTokens * 4 < c.utf8ByteSize)) = true
    ∧ createTranscriptSegments [] = [""]
    ∧ (createTranscriptSegments []).length = 1 := by
  refine ⟨ctsLoop_ne_nil _ _ _, ?_, ctsLoop_sizes _ _ _ rfl, rfl, rfl⟩
  rw [createTranscriptSegments, ctsLoop_join]
  simp [String.join, String.empty_append]

/-- The descending overlap search never exceeds its starting bound. -/
theorem overlapFrom_le (ra rb : List Char) (k : Nat) :
    overlapFrom ra rb k ≤ k := by
  induction k with
  | zero => simp [overlapFrom]
  | succ n ih =>
    simp only [overlapFrom]
    split
    · exact Nat.le_refl _
    · exact Nat.le_succ_of_le ih

/-- The overlap is at most the previous text's rune length, so the
`k > len(r)` drop branch inside `formatVTT` can never be taken. -/
theorem overlap_le_prev_length (a b : String) :
    FindNumOverlappingRunes a b ≤ a.data.length :=
  Nat.le_trans (overlapFrom_le _ _ _) (Nat.min_le_left _ _)

/-- C2: evaluating the caption de-duplication at the spec's own seed
inputs.  A fully overlapping repeat (`k` equal to the previous segment's
rune length) is NOT dropped: the previous segment survives with its text
trimmed to the empty string, because the drop branch requires
`k > len(r)`, which is impossible.  The partial-overlap input trims as the
spec describes. -/
theorem C2_full_overlap_not_dropped :
    formatVTTSegments
        [{ startAt := 0, endAt := 5, text := "hello world" },
         { startAt := 5, endAt := 10, text := "hello world" }]
      = [{ Start := 0, End := 5, Text := "" },
         { Start := 5, End := 10, Text := "hello world" }]
    ∧ formatVTTSegments
        [{ startAt := 0, endAt := 5, text := "hello world" },
         { startAt := 5, endAt := 10, text := "world is wide" }]
      = [{ Start := 0, End := 5, Text := "hello " },
         { Start := 5, End := 10, Text := "world is wide" }] := by decide

/-- Casting `Nat` truncated division into `Int.tdiv`. -/
theorem natCast_tdiv (m n : Nat) :
    Int.tdiv (m : Int) (n : Int) = ((m / n : Nat) : Int) :=
  (Int.ofNat_tdiv m n).symm

/-- Casting `Nat` remainder into `Int.tmod`. -/
theorem natCast_tmod (m n : Nat) :
    Int.tmod (m : Int) (n : Int) = ((m % n : Nat) : Int) :=
  (Int.ofNat_tmod m n).symm

/-- The hours field computed by `fmtHMS` from nanoseconds is `t / 3600`. -/
theorem hmsHours (t : Nat) :
    Int.tdiv ((t : Int) * 1000000000) 3600000000000
      = ((t / 3600 : Nat) : Int) := by
  have h : ((t : Int) * 1000000000) = ((t * 1000000000 : Nat) : Int) := by
    push_cast
    ring
  rw [h, show (3600000000000 : Int) = ((3600000000000 : Nat) : Int) by norm_cast,
    natCast_tdiv]
  congr 1
  rw [show (3600000000000 : Nat) = 3600 * 1000000000 by norm_num]
  exact Nat.mul_div_mul_right t 3600 (by norm_num)

/-- The minutes field computed by `fmtHMS` is `t / 60 % 60`. -/
theorem hmsMinutes (t : Nat) :
    Int.tmod (Int.tdiv ((t : Int) * 1000000000) 60000000000) 60
      = ((t / 60 % 60 : Nat) : Int) := by
  have h : ((t : Int) * 1000000000) = ((t * 1000000000 : Nat) : Int) := by
    push_cast
    ring
  rw [h, show (60000000000 : Int) = ((60000000000 : Nat) : Int) by norm_cast,
    natCast_tdiv,
    show (60 : Int) = ((60 : Nat) : Int) by norm_cast, natCast_tmod]
  congr 1
  rw [show (60000000000 : Nat) = 60 * 1000000000 by norm_num,
    Nat.mul_div_mul_right t 60 (by norm_num)]

/-- The seconds field computed by `fmtHMS` is `t % 60`. -/
theorem hmsSeconds (t : Nat) :
    Int.tmod (Int.tdiv ((t : Int) * 1000000000) 1000000000) 60
      = ((t % 60 : Nat) : Int) := by
  have h : ((t : Int) * 1000000000) = ((t * 1000000000 : Nat) : Int) := by
    push_cast
    ring
  rw [h, show (1000000000 : Int) = ((1000000000 : Nat) : Int) by norm_cast,
    natCast_tdiv,
    show (60 : Int) = ((60 : Nat) : Int) by norm_cast, natCast_tmod]
  congr 1
  rw [Nat.mul_div_cancel t (by norm_num)]

/-- C9 counterexample: at exactly one hour (`t = 3600`) the source renders
`MM:SS`, giving `"00:00"`, not the `"01:00:00"` the claim requires, because
the branch tests `timestamp > time.Hour` strictly. -/
theorem C9_hour_boundary :
    fmtHMS 3600 = "00:00" ∧ fmtHMS 3600 ≠ "01:00:00" := by decide

/-- C9 (amended): `fmtHMS` renders `HH:MM:SS` exactly when the duration is
strictly greater than one hour, and `MM:SS` when it is at most one hour (so
`t = 3600` falls in the `MM:SS` branch). -/
theorem C9_fmtHMS_format (t : Nat) :
    (3600 < t → fmtHMS (t : Int) = specTimestampHMS t)
    ∧ (t ≤ 3600 → fmtHMS (t : Int) = specTimestampMS t) := by
  constructor
  · intro h
    have hc : (3600000000000 : Int) < (t : Int) * 1000000000 := by omega
    simp only [fmtHMS, if_pos hc]
    rw [hmsHours, hmsMinutes, hmsSeconds]
    rfl
  · intro h
    have hc : ¬ ((3600000000000 : Int) < (t : Int) * 1000000000) := by omega
    simp only [fmtHMS, if_neg hc]
    rw [hmsMinutes, hmsSeconds]
    rfl

/-- C9 witness: the amended rendering at `t = 3661` and `t = 3600`. -/
theorem C9_fmtHMS_format_w :
    fmtHMS ((3661 : Nat) : Int) = specTimestampHMS 3661
    ∧ fmtHMS ((3600 : Nat) : Int) = specTimestampMS 3600 :=
  ⟨(C9_fmtHMS_format 3661).1 (by norm_num),
   (C9_fmtHMS_format 3600).2 (by norm_num)⟩

/-- C1: on a fresh run of a video with no automatic captions, the acquire
stage returns the error "Captions should have been available" (its media
branch is dead code), so the pipeline marks the job `failed`; the status
`downloading_audio` is never reached and nothing is forwarded to the
transcribe queue. -/
theorem C1_no_captions_fails_job :
    (pipelineRun "dQw4w9WgXcQ" envNoCaptions).job.status = "failed"
    ∧ (pipelineRun "dQw4w9WgXcQ" envNoCaptions).job.error
        = "Captions should have been available"
    ∧ ((pipelineRun "dQw4w9WgXcQ" envNoCaptions).trace.all
        (fun j => j.status != "downloading_audio")) = true := by decide

/-- C3 counterexample: with artifacts already on disk, the stages skip
their entry status updates, so the job's status steps directly from
`pending` to `summarizing` (audio and transcription present) or from
`pending` to `chunking` (audio present), neither a §4.3 edge. -/
theorem C3_rerun_counterexample :
    goodTrace (pipelineRun "dQw4w9WgXcQ" envRerunBoth).trace = false
    ∧ ("pending", "summarizing")
        ∈ statusChanges (pipelineRun "dQw4w9WgXcQ" envRerunBoth).trace
    ∧ ("pending", "chunking")
        ∈ statusChanges (pipelineRun "dQw4w9WgXcQ" envRerunAudio).trace := by
  decide

/-- C7 counterexample: removing the last listener of a room whose response
is still in flight (`is_busy = true`) deletes the room from the registry —
the source never consults `is_busy`. -/
theorem C7_busy_room_removed :
    lookupA cmgrBusy.chats "v" = some chatBusy
    ∧ chatBusy.isBusy = true
    ∧ (DeleteClient cmgrBusy "c1").2 = Except.ok ()
    ∧ lookupA (DeleteClient cmgrBusy "c1").1.chats "v" = none :=
  ⟨by decide, by decide, rfl, by decide⟩

/-- C8 counterexample: `Delete` mutates the in-memory document but performs
no filesystem operation, leaving the persisted file stale — so not every
mutating call rewrites the JSON document. -/
theorem C8_delete_no_persist :
    (DB.Delete dbSynced "v").1.data = []
    ∧ (DB.Delete dbSynced "v").2 = []
    ∧ (DB.Delete dbSynced "v").1.file = [("v", entryV)] := by decide

/-- Looking up a key after `updateA` finds the new value, provided the key
was bound. -/
theorem lookupA_updateA_self {α : Type} (m : List (String × α)) (k : String)
    (v w : α) (h : lookupA m k = some v) :
    lookupA (updateA m k w) k = some w := by
  induction m with
  | nil => simp [lookupA] at h
  | cons kv rest ih =>
    obtain ⟨k1, v1⟩ := kv
    simp only [updateA, List.map_cons]
    by_cases hk : k1 = k
    · subst hk
      rw [if_pos (show (k1, v1).1 = k1 from rfl)]
      simp [lookupA]
    · rw [if_neg (show ¬ (k1, v1).1 = k from hk)]
      simp only [lookupA, if_neg hk] at h ⊢
      exact ih h

/-- Looking up a key after `insertA` finds the inserted value. -/
theorem lookupA_insertA_self {α : Type} (m : List (String × α)) (k : String)
    (v : α) : lookupA (insertA m k v) k = some v := by
  unfold insertA
  cases hm : lookupA m k with
  | some w => exact lookupA_updateA_self m k w v hm
  | none =>
    induction m with
    | nil => simp [lookupA]
    | cons kv rest ih =>
      by_cases hk : kv.1 = k
      · simp [lookupA, hk] at hm
      · simp only [lookupA, if_neg hk] at hm
        simpa [lookupA, if_neg hk] using ih hm

/-- Looking up a key after `removeA` finds nothing. -/
theorem lookupA_removeA_self {α : Type} (m : List (String × α)) (k : String) :
    lookupA (removeA m k) k = none := by
  induction m with
  | nil => simp [removeA, lookupA]
  | cons kv rest ih =>
    by_cases hk : kv.1 = k
    · simpa [removeA, List.filter, hk] using ih
    · simpa [removeA, List.filter, hk, lookupA] using ih

/-- C7 (amended): given the client is registered to an existing room,
`DeleteClient` succeeds and removes the room from the registry exactly when
the listener count drops to zero (count at most 1 before the call),
regardless of `is_busy`; with more listeners the room survives with the
count decremented. -/
theorem C7_room_removal (mgr : ChatManager) (clientID roomID : String)
    (c : Chat) (hcl : lookupA mgr.clients clientID = some roomID)
    (hr : lookupA mgr.chats roomID = some c) :
    (lookupA (DeleteClient mgr clientID).1.chats roomID = none
        ↔ c.numListeners ≤ 1)
    ∧ (2 ≤ c.numListeners →
        lookupA (DeleteClient mgr clientID).1.chats roomID
          = some { c with numListeners := c.numListeners - 1 })
    ∧ (DeleteClient mgr clientID).2 = Except.ok () := by
  have hif : (if c.numListeners > 0 then c.numListeners - 1
              else c.numListeners) = c.numListeners - 1 := by
    split <;> omega
  simp only [DeleteClient, hcl, hr, hif]
  by_cases h0 : c.numListeners - 1 = 0
  · rw [if_pos h0]
    refine ⟨?_, ?_, rfl⟩
    · simp only [lookupA_removeA_self, true_iff]
      omega
    · intro h2
      omega
  · rw [if_neg h0]
    refine ⟨?_, ?_, rfl⟩
    · rw [lookupA_updateA_self mgr.chats roomID c _ hr]
      simp only [reduceCtorEq, false_iff]
      omega
    · intro h2
      rw [lookupA_updateA_self mgr.chats roomID c _ hr]

/-- C7 witness: deleting one of two listeners keeps the busy room with the
count decremented; deleting the only listener of the idle room removes it. -/
theorem C7_room_removal_w :
    lookupA (DeleteClient cmgrTwo "c1").1.chats "v"
      = some { chatBusy with numListeners := 1 }
    ∧ lookupA (DeleteClient cmgrIdle "c1").1.chats "v" = none := by
  constructor
  · exact (C7_room_removal cmgrTwo "c1" "v" { chatBusy with numListeners := 2 }
      rfl rfl).2.1 (by decide)
  · exact (C7_room_removal cmgrIdle "c1" "v" chatIdle rfl rfl).1.mpr (by decide)

/-- C8 (amended): `Create`, and `SetJobFailed` on an existing entry,
rewrite the complete persisted document through a temp file created in the
target's own directory which a single rename installs — no operation writes
the target directly, so no partial file is observable; `SetJobFailed` on a
missing entry neither mutates nor writes; `Delete` mutates only the
in-memory document and never writes the file. -/
theorem C8_atomic_persistence (db : DB) (videoID : String) (entry : VideoEntry)
    (failed : Bool) (msg : String) (hpath : db.filePath ≠ "") :
    ((DB.Create db videoID entry).1.file = (DB.Create db videoID entry).1.data
      ∧ (DB.Create db videoID entry).2
          = [FsOp.createTemp (goDir db.filePath),
             FsOp.writeTemp (DB.Create db videoID entry).1.data,
             FsOp.syncTemp, FsOp.closeTemp,
             FsOp.renameTempTo (goDir db.filePath) db.filePath,
             FsOp.removeTemp])
    ∧ (lookupA db.data videoID ≠ none →
        (DB.SetJobFailed db videoID failed msg).1.file
            = (DB.SetJobFailed db videoID failed msg).1.data
        ∧ (DB.SetJobFailed db videoID failed msg).2
            = [FsOp.createTemp (goDir db.filePath),
               FsOp.writeTemp (DB.SetJobFailed db videoID failed msg).1.data,
               FsOp.syncTemp, FsOp.closeTemp,
               FsOp.renameTempTo (goDir db.filePath) db.filePath,
               FsOp.removeTemp])
    ∧ (lookupA db.data videoID = none →
        DB.SetJobFailed db videoID failed msg = (db, []))
    ∧ (DB.Delete db videoID).2 = []
    ∧ (DB.Delete db videoID).1.file = db.file := by
  refine ⟨?_, ?_, ?_, rfl, rfl⟩
  · unfold DB.Create SaveToFile
    simp [if_neg hpath]
  · intro hsome
    unfold DB.SetJobFailed
    cases hm : lookupA db.data videoID with
    | none => exact absurd hm hsome
    | some e =>
      unfold SaveToFile
      simp [if_neg hpath]
  · intro hnone
    unfold DB.SetJobFailed
    rw [hnone]

/-- C8 witness: the amended persistence behaviour at the synced fixture. -/
theorem C8_atomic_persistence_w :
    (DB.Create dbSynced "x" entryV).1.file = (DB.Create dbSynced "x" entryV).1.data
    ∧ (DB.SetJobFailed dbSynced "v" false "").1.file
        = (DB.SetJobFailed dbSynced "v" false "").1.data
    ∧ (DB.Delete dbSynced "x").2 = [] := by
  have h := C8_atomic_persistence dbSynced "v" entryV false "" (by decide)
  have h2 := C8_atomic_persistence dbSynced "x" entryV false "" (by decide)
  exact ⟨h2.1.1, (h.2.1 (by decide)).1, h2.2.2.2.1⟩

/-- C5: `send` is rejected with `no_room` when no chat room exists and with
`in_use` when the room is busy, leaving the manager untouched in both
cases; otherwise it is accepted and the single-step transition marks the
room busy with `in_progress_request = message` and an empty
`in_progress_response` — after which a second `send` on the same room is
rejected as busy without changing state (the test-and-set is atomic with
respect to other sends). -/
theorem C5_send_message (mgr : ChatManager) (videoID message m2 : String) :
    (lookupA mgr.chats videoID = none →
        (SendMessageSync mgr videoID message).2.2
            = Except.error ("chat for video \"" ++ videoID ++ "\" not found")
        ∧ (SendMessageSync mgr videoID message).1 = mgr)
    ∧ (∀ c, lookupA mgr.chats videoID = some c → c.isBusy = true →
        (SendMessageSync mgr videoID message).2.2
            = Except.error "chat is busy processing another message"
        ∧ (SendMessageSync mgr videoID message).1 = mgr)
    ∧ (∀ c, lookupA mgr.chats videoID = some c → c.isBusy = false →
        (SendMessageSync mgr videoID message).2.2 = Except.ok ()
        ∧ lookupA (SendMessageSync mgr videoID message).1.chats videoID
            = some { c with isBusy := true, inProgressRequest := message,
                            inProgressResponse := "" }
        ∧ (SendMessageSync (SendMessageSync mgr videoID message).1
              videoID m2).2.2
            = Except.error "chat is busy processing another message"
        ∧ (SendMessageSync (SendMessageSync mgr videoID message).1
              videoID m2).1
            = (SendMessageSync mgr videoID message).1) := by
  refine ⟨?_, ?_, ?_⟩
  · intro h
    simp [SendMessageSync, h]
  · intro c hc hbusy
    simp [SendMessageSync, hc, hbusy]
  · intro c hc hidle
    have hupd := lookupA_updateA_self mgr.chats videoID c
      { c with isBusy := true, inProgressRequest := message,
               inProgressResponse := "" } hc
    refine ⟨?_, ?_, ?_, ?_⟩
    · simp [SendMessageSync, hc, hidle]
    · simpa [SendMessageSync, hc, hidle] using hupd
    · simp [SendMessageSync, hc, hidle, hupd]
    · simp [SendMessageSync, hc, hidle, hupd]

/-- C5 witness: the idle fixture room accepts, and an immediate second send
is rejected as busy. -/
theorem C5_send_message_w :
    (SendMessageSync cmgrIdle "v" "hi").2.2 = Except.ok ()
    ∧ lookupA (SendMessageSync cmgrIdle "v" "hi").1.chats "v"
        = some { chatIdle with isBusy := true, inProgressRequest := "hi",
                               inProgressResponse := "" }
    ∧ (SendMessageSync (SendMessageSync cmgrIdle "v" "hi").1 "v" "again").2.2
        = Except.error "chat is busy processing another message" := by
  have h := (C5_send_message cmgrIdle "v" "hi" "again").2.2 chatIdle rfl rfl
  exact ⟨h.1, h.2.1, h.2.2.1⟩

/-- `SetJobFailed false ""` leaves no failure flag for the id, in memory or
on disk, whenever the store's document and file agree on that id. -/
theorem setJobFailed_clears (db : DB) (id : String) (hpath : db.filePath ≠ "")
    (hsync : lookupA db.file id = lookupA db.data id) :
    (∀ e, lookupA (DB.SetJobFailed db id false "").1.data id = some e →
        e.jobFailed = false ∧ e.lastError = "")
    ∧ (∀ e, lookupA (DB.SetJobFailed db id false "").1.file id = some e →
        e.jobFailed = false ∧ e.lastError = "") := by
  cases hm : lookupA db.data id with
  | none =>
    simp only [DB.SetJobFailed, hm]
    constructor
    · intro e he
      exact absurd he (by simp [hm])
    · intro e he
      exact absurd he (by simp [hsync, hm])
  | some entry =>
    have hupd := lookupA_updateA_self db.data id entry
      { entry with jobFailed := false, lastError := "" } hm
    simp only [DB.SetJobFailed, hm, SaveToFile, if_neg hpath]
    constructor
    · intro e he
      rw [hupd] at he
      cases he
      exact ⟨rfl, rfl⟩
    · intro e he
      rw [hupd] at he
      cases he
      exact ⟨rfl, rfl⟩

/-- C4: `create_or_revive` returns the existing job and an unchanged
registry when a non-failed job exists; otherwise it returns a fresh
`pending` job with empty error, installs it, clears the persisted failure
flag for the id (in the document and the file), and broadcasts one `new`
event carrying the job. -/
theorem C4_create_or_revive (mgr : Manager) (videoID : String)
    (hpath : mgr.db.filePath ≠ "")
    (hsync : lookupA mgr.db.file videoID = lookupA mgr.db.data videoID) :
    (∀ j, lookupA mgr.jobs videoID = some j → j.status ≠ "failed" →
        CreateJob mgr videoID = ((true, j), mgr))
    ∧ ((∀ j, lookupA mgr.jobs videoID = some j → j.status = "failed") →
        (CreateJob mgr videoID).1.1 = false
        ∧ (CreateJob mgr videoID).1.2.status = "pending"
        ∧ (CreateJob mgr videoID).1.2.error = ""
        ∧ lookupA (CreateJob mgr videoID).2.jobs videoID
            = some (CreateJob mgr videoID).1.2
        ∧ (∀ e, lookupA (CreateJob mgr videoID).2.db.data videoID = some e →
            e.jobFailed = false ∧ e.lastError = "")
        ∧ (∀ e, lookupA (CreateJob mgr videoID).2.db.file videoID = some e →
            e.jobFailed = false ∧ e.lastError = "")
        ∧ (CreateJob mgr videoID).2.events
            = mgr.events ++ [("new", (CreateJob mgr videoID).1.2)]) := by
  constructor
  · intro j hj hne
    simp [CreateJob, hj, hne]
  · intro hfail
    have hclears := setJobFailed_clears mgr.db videoID hpath hsync
    cases hj : lookupA mgr.jobs videoID with
    | some j =>
      have hst : j.status = "failed" := hfail j hj
      simp only [CreateJob, hj, hst, ne_eq, not_true_eq_false, if_false,
        ite_false]
      exact ⟨trivial, trivial, trivial, lookupA_insertA_self _ _ _,
        hclears.1, hclears.2, trivial⟩
    | none =>
      simp only [CreateJob, hj]
      exact ⟨trivial, trivial, trivial, lookupA_insertA_self _ _ _,
        hclears.1, hclears.2, trivial⟩

/-- C4 witness: reviving the failed fixture job yields a fresh pending job,
clears the persisted failure flag, and broadcasts `new`. -/
theorem C4_create_or_revive_w :
    (CreateJob mgrFailedV "v").1.1 = false
    ∧ (CreateJob mgrFailedV "v").1.2.status = "pending"
    ∧ (∀ e, lookupA (CreateJob mgrFailedV "v").2.db.data "v" = some e →
        e.jobFailed = false ∧ e.lastError = "")
    ∧ (CreateJob mgrFailedV "v").2.events
        = mgrFailedV.events ++ [("new", (CreateJob mgrFailedV "v").1.2)] := by
  have h := (C4_create_or_revive mgrFailedV "v" (by decide) rfl).2
    (fun j hj => by
      rw [show lookupA mgrFailedV.jobs "v" = some failedJobV from rfl] at hj
      cases hj
      rfl)
  exact ⟨h.1, h.2.1, h.2.2.2.2.1, h.2.2.2.2.2.2⟩

/-- The `"Error: ..."` response text is never empty. -/
theorem error_text_ne_empty (e : String) : "Error: " ++ e ≠ "" := by
  intro h
  have := congrArg String.data h
  simp [String.data_append] at this

/-- Mutating a present room rebinds exactly its registry entry. -/
theorem mapChat_lookup (mgr : ChatManager) (videoID : String) (f : Chat → Chat)
    (c : Chat) (h : lookupA mgr.chats videoID = some c) :
    lookupA (mapChat mgr videoID f).chats videoID = some (f c) := by
  simp only [mapChat, h]
  exact lookupA_updateA_self _ _ _ _ h

/-- Broadcasting for a present room emits exactly one `update` frame with
the snapshot. -/
theorem broadcastUpdate_some (mgr : ChatManager) (videoID : String) (c : Chat)
    (h : lookupA mgr.chats videoID = some c) :
    broadcastUpdate mgr videoID = [ChatEvent.update c] := by
  simp [broadcastUpdate, h]

/-- Streaming the tokens appends them in order to the room's response
buffer and emits only `update` events. -/
theorem tokenFold (videoID : String) (tokens : List String)
    (mgr : ChatManager) (evs : List ChatEvent) (c : Chat)
    (h : lookupA mgr.chats videoID = some c) :
    lookupA (tokens.foldl (tokenStep videoID) (mgr, evs)).1.chats videoID
      = some { c with inProgressResponse :=
                 c.inProgressResponse ++ String.join tokens }
    ∧ ∃ extra, (tokens.foldl (tokenStep videoID) (mgr, evs)).2 = evs ++ extra
        ∧ ∀ ev ∈ extra, ∃ s, ev = ChatEvent.update s := by
  induction tokens generalizing mgr evs c with
  | nil =>
    refine ⟨?_, [], by simp, by simp⟩
    simpa [String.join, String.append_empty] using h
  | cons tok rest ih =>
    have hm : lookupA (mapChat mgr videoID (fun ch =>
        { ch with inProgressResponse := ch.inProgressResponse ++ tok })).chats
          videoID
        = some { c with inProgressResponse := c.inProgressResponse ++ tok } :=
      mapChat_lookup mgr videoID _ c h
    have hb := broadcastUpdate_some _ videoID _ hm
    rw [List.foldl_cons,
      show tokenStep videoID (mgr, evs) tok
        = (mapChat mgr videoID (fun ch =>
            { ch with inProgressResponse := ch.inProgressResponse ++ tok }),
           evs ++ broadcastUpdate (mapChat mgr videoID (fun ch =>
            { ch with inProgressResponse := ch.inProgressResponse ++ tok }))
             videoID) from rfl]
    obtain ⟨h1, extra, he, hall⟩ := ih _ _ _ hm
    refine ⟨?_, ?_⟩
    · rw [h1]
      simp [joinCons, String.append_assoc]
    · refine ⟨broadcastUpdate (mapChat mgr videoID (fun ch =>
        { ch with inProgressResponse := ch.inProgressResponse ++ tok }))
          videoID ++ extra, by rw [he, List.append_assoc], ?_⟩
      intro ev hev
      rcases List.mem_append.mp hev with h2 | h2
      · rw [hb] at h2
        simp only [List.mem_singleton] at h2
        exact ⟨_, h2⟩
      · exact hall ev h2

/-- The deferred completion steps of the chat worker, stated for an
arbitrary post-stream state: given the room holds the final response text,
the tail broadcasts exactly one `complete`, ends with the `update` carrying
the cleared room, and clears the registry entry. -/
theorem workerTailFacts (bodyMgr : ChatManager) (bodyEvs : List ChatEvent)
    (videoID : String) (frVal : String) (c c0 : Chat)
    (hlook : lookupA bodyMgr.chats videoID = some c0)
    (hc0 : c0 = { c with inProgressResponse := frVal })
    (hall : ∀ ev ∈ bodyEvs, ∃ s, ev = ChatEvent.update s) :
    ((bodyEvs ++ [ChatEvent.complete]) ++
        broadcastUpdate (mapChat bodyMgr videoID clearRoom) videoID).count
        ChatEvent.complete = 1
    ∧ ((bodyEvs ++ [ChatEvent.complete]) ++
        broadcastUpdate (mapChat bodyMgr videoID clearRoom) videoID).getLast?
        = some (ChatEvent.update (clearRoom c))
    ∧ ((bodyEvs ++ [ChatEvent.complete]) ++
        broadcastUpdate (mapChat bodyMgr videoID clearRoom)
          videoID).dropLast.getLast? = some ChatEvent.complete
    ∧ (∀ ev ∈ ((bodyEvs ++ [ChatEvent.complete]) ++
        broadcastUpdate (mapChat bodyMgr videoID clearRoom)
          videoID).dropLast.dropLast, ∃ s, ev = ChatEvent.update s)
    ∧ lookupA (mapChat bodyMgr videoID clearRoom).chats videoID
        = some (clearRoom c) := by
  subst hc0
  have hm3 : lookupA (mapChat bodyMgr videoID clearRoom).chats videoID
      = some (clearRoom c) := by
    have h0 := mapChat_lookup bodyMgr videoID clearRoom _ hlook
    exact h0
  have hb3 := broadcastUpdate_some _ videoID _ hm3
  have hnc : ChatEvent.complete ∉ bodyEvs := by
    intro hmem
    rcases hall _ hmem with ⟨s, hs⟩
    cases hs
  refine ⟨?_, ?_, ?_, ?_, hm3⟩
  · rw [hb3]
    simp [List.count_append, List.count_eq_zero.mpr hnc]
  · rw [hb3]
    exact List.getLast?_concat _
  · rw [hb3, List.dropLast_concat]
    exact List.getLast?_concat _
  · rw [hb3, List.dropLast_concat, List.dropLast_concat]
    exact hall

/-- C6: on stream termination (normal or error) the chat worker broadcasts
exactly one `complete`; the event sequence ends with `complete` followed by
one final `update` carrying the cleared room; the room's `is_busy`,
`in_progress_request` and `in_progress_response` are cleared; the worker
appends `{user, message}` then `{assistant, response}` to the persistent
transcript exactly when the final response is non-empty; and a model error
puts `"Error: ..."` into the response, so the transcript is still
appended. -/
theorem C6_chat_completion (mgr : ChatManager) (videoID message : String)
    (history : List ChatMsg) (tokens : List String) (modelErr : Option String)
    (c : Chat) (hc : lookupA mgr.chats videoID = some c) :
    (chatWorkerRun mgr videoID message history tokens modelErr).2.1.count
        ChatEvent.complete = 1
    ∧ (chatWorkerRun mgr videoID message history tokens modelErr).2.1.getLast?
        = some (ChatEvent.update (clearRoom c))
    ∧ (chatWorkerRun mgr videoID message history tokens
        modelErr).2.1.dropLast.getLast? = some ChatEvent.complete
    ∧ (∀ ev ∈ (chatWorkerRun mgr videoID message history tokens
        modelErr).2.1.dropLast.dropLast, ∃ s, ev = ChatEvent.update s)
    ∧ lookupA (chatWorkerRun mgr videoID message history tokens
        modelErr).1.chats videoID = some (clearRoom c)
    ∧ (finalResponseOf c tokens modelErr ≠ "" →
        (chatWorkerRun mgr videoID message history tokens modelErr).2.2
          = history ++ [{ content := message, role := "user" },
              { content := finalResponseOf c tokens modelErr,
                role := "assistant" }])
    ∧ (finalResponseOf c tokens modelErr = "" →
        (chatWorkerRun mgr videoID message history tokens modelErr).2.2
          = history)
    ∧ (∀ e, modelErr = some e →
        (chatWorkerRun mgr videoID message history tokens modelErr).2.2
          = history ++ [{ content := message, role := "user" },
              { content := "Error: " ++ e, role := "assistant" }]) := by
  obtain ⟨hbody, extra, hextra, hallextra⟩ := tokenFold videoID tokens mgr [] c hc
  rw [List.nil_append] at hextra
  cases modelErr with
  | none =>
    have hrun : chatWorkerRun mgr videoID message history tokens none
        = (mapChat (tokens.foldl (tokenStep videoID) (mgr, [])).1 videoID
             clearRoom,
           ((tokens.foldl (tokenStep videoID) (mgr, [])).2 ++
               [ChatEvent.complete]) ++
             broadcastUpdate (mapChat
               (tokens.foldl (tokenStep videoID) (mgr, [])).1 videoID
               clearRoom) videoID,
           if (c.inProgressResponse ++ String.join tokens) ≠ "" then
             history ++ [{ content := message, role := "user" },
               { content := c.inProgressResponse ++ String.join tokens,
                 role := "assistant" }]
           else history) := by
      simp only [chatWorkerRun]
      rw [hbody]
      rfl
    have htail := workerTailFacts
      (tokens.foldl (tokenStep videoID) (mgr, [])).1
      (tokens.foldl (tokenStep videoID) (mgr, [])).2 videoID
      (c.inProgressResponse ++ String.join tokens) c _ hbody rfl
      (by rw [hextra]; exact hallextra)
    rw [hrun]
    refine ⟨htail.1, htail.2.1, htail.2.2.1, htail.2.2.2.1, htail.2.2.2.2,
      ?_, ?_, ?_⟩
    · intro h
      simp only [finalResponseOf] at h ⊢
      rw [if_pos h]
    · intro h
      simp only [finalResponseOf] at h
      have hn : ¬ (c.inProgressResponse ++ String.join tokens ≠ "") :=
        fun hne => hne h
      rw [if_neg hn]
    · intro e he
      exact absurd he (by simp)
  | some e =>
    have hmE : lookupA (mapChat
        (tokens.foldl (tokenStep videoID) (mgr, [])).1 videoID
        (fun ch => { ch with inProgressResponse := "Error: " ++ e })).chats
          videoID
        = some { c with inProgressResponse := "Error: " ++ e } := by
      have h0 := mapChat_lookup
        (tokens.foldl (tokenStep videoID) (mgr, [])).1 videoID
        (fun ch => { ch with inProgressResponse := "Error: " ++ e }) _ hbody
      exact h0
    have hbE := broadcastUpdate_some _ videoID _ hmE
    have hrun : chatWorkerRun mgr videoID message history tokens (some e)
        = (mapChat (mapChat
             (tokens.foldl (tokenStep videoID) (mgr, [])).1 videoID
             (fun ch => { ch with inProgressResponse := "Error: " ++ e })) videoID clearRoom,
           (((tokens.foldl (tokenStep videoID) (mgr, [])).2 ++
               broadcastUpdate (mapChat
                 (tokens.foldl (tokenStep videoID) (mgr, [])).1 videoID
                 (fun ch => { ch with inProgressResponse := "Error: " ++ e })) videoID) ++ [ChatEvent.complete]) ++
             broadcastUpdate (mapChat (mapChat
               (tokens.foldl (tokenStep videoID) (mgr, [])).1 videoID
               (fun ch => { ch with inProgressResponse := "Error: " ++ e })) videoID clearRoom) videoID,
           if ("Error: " ++ e) ≠ "" then
             history ++ [{ content := message, role := "user" },
               { content := "Error: " ++ e, role := "assistant" }]
           else history) := by
      simp only [chatWorkerRun]
      rw [hmE]
      rfl
    have htail := workerTailFacts
      (mapChat (tokens.foldl (tokenStep videoID) (mgr, [])).1 videoID
        (fun ch => { ch with inProgressResponse := "Error: " ++ e }))
      ((tokens.foldl (tokenStep videoID) (mgr, [])).2 ++
        broadcastUpdate (mapChat
          (tokens.foldl (tokenStep videoID) (mgr, [])).1 videoID
          (fun ch => { ch with inProgressResponse := "Error: " ++ e })) videoID)
      videoID ("Error: " ++ e) c _ hmE rfl
      (by
        intro ev hev
        rcases List.mem_append.mp hev with h2 | h2
        · rw [hextra] at h2
          exact hallextra ev h2
        · rw [hbE] at h2
          simp only [List.mem_singleton] at h2
          exact ⟨_, h2⟩)
    rw [hrun]
    refine ⟨htail.1, htail.2.1, htail.2.2.1, htail.2.2.2.1, htail.2.2.2.2,
      ?_, ?_, ?_⟩
    · intro h
      simp only [finalResponseOf, if_pos (error_text_ne_empty e)]
    · intro h
      simp only [finalResponseOf] at h
      exact absurd h (error_text_ne_empty e)
    · intro e2 he2
      cases he2
      simp only [if_pos (error_text_ne_empty e)]

/-- C6 witness: streaming two tokens into the busy fixture room appends the
transcript pair, broadcasts one `complete`, and clears the room. -/
theorem C6_chat_completion_w :
    (chatWorkerRun cmgrBusy "v" "hi" [] ["a", "b"] none).2.2
      = [{ content := "hi", role := "user" },
         { content := "rab", role := "assistant" }]
    ∧ (chatWorkerRun cmgrBusy "v" "hi" [] ["a", "b"] none).2.1.count
        ChatEvent.complete = 1
    ∧ lookupA (chatWorkerRun cmgrBusy "v" "hi" [] ["a", "b"] none).1.chats "v"
        = some (clearRoom chatBusy) := by
  have h := C6_chat_completion cmgrBusy "v" "hi" [] ["a", "b"] none chatBusy rfl
  refine ⟨?_, h.1, h.2.2.2.2.1⟩
  have h6 := h.2.2.2.2.2.1 (by decide)
  exact h6.trans (by decide)

/-- `statusChanges` over an appended snapshot: the changes so far plus the
step from the old last status, when it differs. -/
theorem statusChanges_concat (trace : List SummaryJob) (a b : SummaryJob)
    (h : trace.getLast? = some a) :
    statusChanges (trace ++ [b])
      = statusChanges trace ++
        (if a.status = b.status then [] else [(a.status, b.status)]) := by
  induction trace with
  | nil => cases h
  | cons x rest ih =>
    cases rest with
    | nil =>
      have hx : x = a := by simpa using h
      subst hx
      simp [statusChanges]
    | cons y rest2 =>
      have h2 : (y :: rest2).getLast? = some a := by
        simpa [List.getLast?_cons_cons] using h
      have ih2 := ih h2
      simp only [List.cons_append] at ih2 ⊢
      simp only [statusChanges, ih2, List.append_assoc]

/-- Any state can step to `failed`. -/
theorem isEdge_to_failed (a : String) : isEdge a "failed" = true := by
  simp [isEdge]

/-- Broadcasting one more snapshot keeps the trace well-formed provided the
status is unchanged or the change is a table edge. -/
theorem push_good (st : St) (f : SummaryJob → SummaryJob)
    (hlast : st.trace.getLast? = some st.job)
    (hgood : goodTrace st.trace = true)
    (hstep : (f st.job).status = st.job.status
      ∨ isEdge st.job.status (f st.job).status = true) :
    (push st f).trace.getLast? = some (push st f).job
    ∧ goodTrace (push st f).trace = true
    ∧ (push st f).job = f st.job := by
  refine ⟨?_, ?_, rfl⟩
  · simp [push, List.getLast?_concat]
  · rw [goodTrace] at hgood
    simp only [push, goodTrace,
      statusChanges_concat st.trace st.job (f st.job) hlast, List.all_append,
      hgood, Bool.true_and]
    rcases hstep with h | h
    · simp [h]
    · by_cases heq : st.job.status = (f st.job).status
      · simp [heq]
      · simp [heq, h]

/-- The job's broadcast after `failed` keeps the trace well-formed. -/
theorem failJob_good (st : St) (e : String)
    (hlast : st.trace.getLast? = some st.job)
    (hgood : goodTrace st.trace = true) :
    goodTrace (failJob st e).trace = true :=
  (push_good st _ hlast hgood (Or.inr (isEdge_to_failed _))).2.1

/-- `extractVideoMeta` broadcasts at most a metadata update: the status and
trace well-formedness are preserved. -/
theorem extractVideoMeta_st (env : PipeEnv) (st : St)
    (hlast : st.trace.getLast? = some st.job)
    (hgood : goodTrace st.trace = true) :
    (extractVideoMeta env st).1.trace.getLast?
        = some (extractVideoMeta env st).1.job
    ∧ goodTrace (extractVideoMeta env st).1.trace = true
    ∧ (extractVideoMeta env st).1.job.status = st.job.status := by
  unfold extractVideoMeta
  cases hi : env.infoJson with
  | error e => exact ⟨hlast, hgood, rfl⟩
  | ok meta =>
    have hp := push_good st (fun j =>
      { j with progress := { j.progress with videoMeta := some meta } })
      hlast hgood (Or.inl rfl)
    exact ⟨hp.1, hp.2.1, by rw [hp.2.2]⟩

/-- The rolling-summary loop only reports progress: the status and trace
well-formedness are preserved. -/
theorem summarizeLoop_st (env : PipeEnv) (chunks : List String) (i : Nat)
    (cur : String) (st : St)
    (hlast : st.trace.getLast? = some st.job)
    (hgood : goodTrace st.trace = true) :
    (summarizeLoop env st chunks i cur).1.trace.getLast?
        = some (summarizeLoop env st chunks i cur).1.job
    ∧ goodTrace (summarizeLoop env st chunks i cur).1.trace = true
    ∧ (summarizeLoop env st chunks i cur).1.job.status = st.job.status := by
  induction chunks generalizing st i cur with
  | nil => exact ⟨hlast, hgood, rfl⟩
  | cons chunk rest ih =>
    simp only [summarizeLoop]
    cases hl : env.llmResults i with
    | error e => exact ⟨hlast, hgood, rfl⟩
    | ok newSummary =>
      have hp := push_good st (fun j =>
        { j with progress := { j.progress with chunksSummarized := i + 1 } })
        hlast hgood (Or.inl rfl)
      have hi2 := ih (i + 1) newSummary (push st (fun j =>
        { j with progress := { j.progress with chunksSummarized := i + 1 } }))
        hp.1 hp.2.1
      refine ⟨hi2.1, hi2.2.1, ?_⟩
      rw [hi2.2.2, hp.2.2]

/-- `SummarizeVideo` reports chunk counts and progress but never changes
the status. -/
theorem SummarizeVideo_st (env : PipeEnv) (st : St)
    (hlast : st.trace.getLast? = some st.job)
    (hgood : goodTrace st.trace = true) :
    (SummarizeVideo env st).1.trace.getLast?
        = some (SummarizeVideo env st).1.job
    ∧ goodTrace (SummarizeVideo env st).1.trace = true
    ∧ (SummarizeVideo env st).1.job.status = st.job.status := by
  cases hs : env.scribeRead with
  | error e =>
    unfold SummarizeVideo
    rw [hs]
    exact ⟨hlast, hgood, rfl⟩
  | ok scribeData =>
    unfold SummarizeVideo
    rw [hs]
    dsimp only
    have hp := push_good st (fun j =>
      { j with progress := { j.progress with
          summaryChunks := (createTranscriptSegments scribeData).length } })
      hlast hgood (Or.inl rfl)
    have hloop := summarizeLoop_st env (createTranscriptSegments scribeData)
      0 "" (push st (fun j =>
        { j with progress := { j.progress with
            summaryChunks := (createTranscriptSegments scribeData).length } }))
      hp.1 hp.2.1
    have hstat : (summarizeLoop env (push st (fun j =>
        { j with progress := { j.progress with
            summaryChunks := (createTranscriptSegments scribeData).length } }))
        (createTranscriptSegments scribeData) 0 "").1.job.status
        = st.job.status := by
      rw [hloop.2.2, hp.2.2]
    split
    next stL e heq =>
      rw [heq] at hloop hstat
      exact ⟨hloop.1, hloop.2.1, hstat⟩
    next stL fs heq =>
      rw [heq] at hloop hstat
      split
      next e2 heq2 => exact ⟨hloop.1, hloop.2.1, hstat⟩
      next heq2 => exact ⟨hloop.1, hloop.2.1, hstat⟩

/-- The summarize stage and finalize keep every status change on the table,
provided entering `summarizing` from the current status is an edge. -/
theorem summarizeStage_good (env : PipeEnv) (st : St)
    (hlast : st.trace.getLast? = some st.job)
    (hgood : goodTrace st.trace = true)
    (hedge : isEdge st.job.status "summarizing" = true) :
    goodTrace (summarizeStage env st).trace = true := by
  unfold summarizeStage
  dsimp only
  have hp := push_good st (fun j => { j with status := "summarizing" })
    hlast hgood (Or.inr hedge)
  have hsv := SummarizeVideo_st env (push st (fun j =>
    { j with status := "summarizing" })) hp.1 hp.2.1
  have hstat : (SummarizeVideo env (push st (fun j =>
      { j with status := "summarizing" }))).1.job.status = "summarizing" := by
    rw [hsv.2.2, hp.2.2]
  split
  next stS e heq =>
    rw [heq] at hsv
    exact failJob_good stS e hsv.1 hsv.2.1
  next stS u heq =>
    rw [heq] at hsv hstat
    have hedge2 : isEdge stS.job.status "finished" = true := by
      rw [show stS.job.status = "summarizing" from hstat]
      decide
    exact (push_good stS (fun j => { j with status := "finished" })
      hsv.1 hsv.2.1 (Or.inr hedge2)).2.1

/-- With no audio artifact on disk, the acquire stage either fails (no
captions, probe error, read error, subtitle error) or completes the
captions fast-path with status `downloaded_captions`; its trace is always
well-formed from `pending`. -/
theorem DownloadVideo_st (env : PipeEnv) (id : String) (st : St)
    (ha : env.audioExists = false)
    (hlast : st.trace.getLast? = some st.job)
    (hgood : goodTrace st.trace = true)
    (hpend : st.job.status = "pending") :
    (DownloadVideo env id st).1.trace.getLast?
        = some (DownloadVideo env id st).1.job
    ∧ goodTrace (DownloadVideo env id st).1.trace = true
    ∧ ((∃ e, (DownloadVideo env id st).2 = Except.error e)
       ∨ ((DownloadVideo env id st).2 = Except.ok true
          ∧ (DownloadVideo env id st).1.job.status = "downloaded_captions")) := by
  unfold DownloadVideo
  simp only [ha, Bool.false_eq_true, if_false, ite_false]
  have hedge1 : isEdge st.job.status "checking_for_captions" = true := by
    rw [hpend]
    decide
  have hp := push_good st (fun j => { j with status := "checking_for_captions" })
    hlast hgood (Or.inr hedge1)
  have hpstat : (push st (fun j =>
      { j with status := "checking_for_captions" })).job.status
      = "checking_for_captions" := by
    rw [hp.2.2]
  cases hpe : env.probeErr with
  | some e => exact ⟨hp.1, hp.2.1, Or.inl ⟨e, rfl⟩⟩
  | none =>
    cases hdr : env.dirRead with
    | error e => exact ⟨hp.1, hp.2.1, Or.inl ⟨e, rfl⟩⟩
    | ok entries =>
      dsimp only
      by_cases hraw : findFirstByVideoID entries DownloadsPath id = ""
      · rw [if_pos hraw]
        exact ⟨hp.1, hp.2.1, Or.inl ⟨_, rfl⟩⟩
      · rw [if_neg hraw, if_neg hraw]
        have hedge2 : isEdge (push st (fun j =>
            { j with status := "checking_for_captions" })).job.status
            "downloaded_captions" = true := by
          rw [hpstat]
          decide
        have hp2 := push_good (push st (fun j =>
            { j with status := "checking_for_captions" }))
          (fun j => { j with status := "downloaded_captions" })
          hp.1 hp.2.1 (Or.inr hedge2)
        have hev := extractVideoMeta_st env (push (push st (fun j =>
            { j with status := "checking_for_captions" }))
          (fun j => { j with status := "downloaded_captions" })) hp2.1 hp2.2.1
        have hevstat : (extractVideoMeta env (push (push st (fun j =>
            { j with status := "checking_for_captions" }))
            (fun j => { j with status := "downloaded_captions" }))).1.job.status
            = "downloaded_captions" := by
          rw [hev.2.2, hp2.2.2]
        cases hfv : formatVTTRun env with
        | some e => exact ⟨hev.1, hev.2.1, Or.inl ⟨e, rfl⟩⟩
        | none => exact ⟨hev.1, hev.2.1, Or.inr ⟨rfl, hevstat⟩⟩

/-- C3 (amended): on any run where the audio artifact does not already
exist on disk, every change of the job's `status` over the whole pipeline
run follows an edge of the §4.3 table.  (When artifacts pre-exist, the
stages skip their entry statuses — see the counterexample.) -/
theorem C3_status_edges (videoID : String) (env : PipeEnv)
    (ha : env.audioExists = false) :
    goodTrace (pipelineRun videoID env).trace = true := by
  unfold pipelineRun
  dsimp only
  have h := DownloadVideo_st env videoID
    { job := { videoID := videoID, status := "pending", error := "",
               progress := JobProgress.zero },
      trace := [{ videoID := videoID, status := "pending", error := "",
                  progress := JobProgress.zero }] } ha rfl rfl rfl
  split
  next stD e heq =>
    rw [heq] at h
    exact failJob_good stD e h.1 h.2.1
  next stD heq =>
    rw [heq] at h
    rcases h.2.2 with ⟨e, he⟩ | ⟨hok, hstat⟩
    · exact absurd he (by simp)
    · have hs : stD.job.status = "downloaded_captions" := hstat
      have hedge : isEdge stD.job.status "summarizing" = true := by
        rw [hs]
        decide
      exact summarizeStage_good env stD h.1 h.2.1 hedge
  next stD heq =>
    rw [heq] at h
    rcases h.2.2 with ⟨e, he⟩ | ⟨hok, hstat⟩
    · exact absurd he (by simp)
    · exact absurd hok (by simp)

/-- C3 witness: a fresh captions-path run satisfies the amended claim. -/
theorem C3_status_edges_w :
    goodTrace (pipelineRun "dQw4w9WgXcQ" envCaps).trace = true :=
  C3_status_edges "dQw4w9WgXcQ" envCaps rfl

/-- C10 witness: the chunking facts at the empty list and at a one-segment
script. -/
theorem C10_chunking_w :
    createTranscriptSegments ([] : List Segment) = [""]
    ∧ String.join (createTranscriptSegments
        [{ Start := 0, End := 2, Text := "hi" }])
        = String.join ([({ Start := 0, End := 2, Text := "hi" } : Segment)].map
            subtitleLine) :=
  ⟨(C10_chunking []).2.2.2.1,
   (C10_chunking [{ Start := 0, End := 2, Text := "hi" }]).2.1⟩

end GoYtSum
